import Mathlib

/-!
Verification of the snapchain-e2e core against its specification.

The development shallow-embeds the relevant Rust functions:
machine integers become `Nat` (with explicit `% 2^w` where the source
truncates), byte vectors become `List Nat`, fallible code returns
`Except`, and the actor handlers become pure functions from a state
model to a list of emitted effects.
-/

namespace Snapchain

/-- Byte strings (`Vec<u8>` in the source). -/
abbrev Bytes := List Nat

/-! ## Big-endian integer encodings (`u32::to_be_bytes`, `u64::to_be_bytes`) -/

/-- `u32::to_be_bytes`: the four big-endian bytes of a 32-bit value. -/
def u32_to_be_bytes (n : Nat) : Bytes :=
  [n / 2 ^ 24 % 256, n / 2 ^ 16 % 256, n / 2 ^ 8 % 256, n % 256]

/-- `u64::to_be_bytes`: the eight big-endian bytes of a 64-bit value. -/
def u64_to_be_bytes (n : Nat) : Bytes :=
  [n / 2 ^ 56 % 256, n / 2 ^ 48 % 256, n / 2 ^ 40 % 256, n / 2 ^ 32 % 256,
   n / 2 ^ 24 % 256, n / 2 ^ 16 % 256, n / 2 ^ 8 % 256, n % 256]

/-- `i64::to_be_bytes`: two's complement big-endian encoding of a signed
64-bit value (`Int.emod` by `2^64` is exactly the two's complement bit
pattern). -/
def i64_to_be_bytes (i : Int) : Bytes :=
  u64_to_be_bytes ((i % (2 ^ 64 : Int)).toNat)

/-- `u32::from_be_bytes`: read a big-endian value from a list of bytes. -/
def be_bytes_to_nat (l : Bytes) : Nat :=
  l.foldl (fun acc b => acc * 256 + b) 0

/-! ## src/storage/store/account/message.rs : fid keys -/

/-- `FID_BYTES` from src/storage/store/account/message.rs. -/
def FID_BYTES : Nat := 4

/-- `make_fid_key` from src/storage/store/account/message.rs: the fid is
downcast to `u32` (`fid as FidOnDisk`, i.e. `% 2^32`) and written as four
big-endian bytes. -/
def make_fid_key (fid : Nat) : Bytes :=
  u32_to_be_bytes (fid % 2 ^ 32)

/-- `read_fid_key` from src/storage/store/account/message.rs: reads the
four bytes at `offset` as a big-endian `u32` and upcasts to `u64`. -/
def read_fid_key (key : Bytes) (offset : Nat) : Nat :=
  be_bytes_to_nat ((key.drop offset).take FID_BYTES)

/-! ## src/connectors/onchain_events/mod.rs : local state bookkeeping -/

/-- The per-chain slot of the `LocalStateStore` that
`get_latest_block_number` / `set_latest_block_number` read and write
(`None` when nothing was ever stored for the chain). -/
structure LocalStateStore where
  latest_block_number : Option Nat
deriving DecidableEq, Repr

/-- `Subscriber::latest_block_in_db` from
src/connectors/onchain_events/mod.rs: the stored number, with a missing
(or unreadable) entry treated as 0. -/
def latest_block_in_db (store : LocalStateStore) : Nat :=
  store.latest_block_number.getD 0

/-- `Subscriber::record_block_number` from
src/connectors/onchain_events/mod.rs: writes `block_number` only when it
is strictly greater than the currently stored value. -/
def record_block_number (store : LocalStateStore) (block_number : Nat) :
    LocalStateStore :=
  if block_number > latest_block_in_db store then
    { latest_block_number := some block_number }
  else
    store

/-! ## src/consensus/malachite/host.rs : the consensus Host actor

The Host bridges the external BFT driver and the `ShardValidator`.  The
`ShardValidator` itself (src/consensus/validator.rs) is an external
collaborator of the handler code under scrutiny; it is modelled as an
oracle record of the query results the handler consumes. -/

/-- `Height`: `(shard_index: u32, block_number: u64)`. -/
structure Height where
  shard_index : Nat
  block_number : Nat
deriving DecidableEq, Repr

/-- `Height::as_u64`. -/
def Height.as_u64 (h : Height) : Nat := h.block_number

/-- Modelled from the spec: `Height::increment` (src/core/types.rs is not
among the provided sources); per the spec the Host schedules
`StartHeight(height+1)`, i.e. the next block number on the same shard. -/
def Height.increment (h : Height) : Height :=
  { h with block_number := h.block_number + 1 }

/-- `ShardHash`, the value id carried by certificates
(`certificate.value_id` has fields `shard_index` and `hash`). -/
structure ShardHash where
  shard_index : Nat
  hash : Bytes
deriving DecidableEq, Repr

/-- A validator set as the Host forwards it (the handler only reads
`validators.len()` for logging). -/
structure ValidatorSet where
  validators : List Bytes
deriving DecidableEq, Repr

/-- The `proposed_value` oneof of a `FullProposal`: a `Block` (shard 0) or
a `ShardChunk`; the payloads are opaque to the Host handler and kept as
bytes. -/
inductive ProposedValuePayload where
  | blockPayload (bytes : Bytes)
  | shardPayload (bytes : Bytes)
deriving DecidableEq, Repr

/-- `FullProposal` : `{ height, round, proposer, proposed_value }`. -/
structure FullProposal where
  height : Height
  round : Int
  proposer : Bytes
  proposed_value : Option ProposedValuePayload
deriving DecidableEq, Repr

/-- `FullProposal::proposer_address`: the proposer bytes. -/
def FullProposal.proposer_address (fp : FullProposal) : Bytes :=
  fp.proposer

/-- The commit certificate the driver delivers with `Decided`
(the handler reads `height`, `round` and `value_id`). -/
structure CommitCertificate where
  height : Height
  round : Int
  value_id : ShardHash
deriving DecidableEq, Repr

/-- `Commits::from_commit_certificate`: the commits derived from a
certificate; opaque to the Host handler, so kept as the certificate. -/
structure Commits where
  certificate : CommitCertificate
deriving DecidableEq, Repr

/-- `Commits::from_commit_certificate`. -/
def Commits.from_commit_certificate (c : CommitCertificate) : Commits :=
  ⟨c⟩

/-- The `decided_value::Value` oneof built in the `Decided` arm: the
proposal's block or shard chunk with the commits attached. -/
inductive DecidedValueBody where
  | blockValue (bytes : Bytes) (commits : Commits)
  | shardValue (bytes : Bytes) (commits : Commits)
deriving DecidableEq, Repr

/-- The `decided_value` computed in the `Decided` arm:
`proposed_value.block(commits)` when the proposal holds a block, else
`proposed_value.shard_chunk(commits)` when it holds a shard chunk, else
`None`. -/
def FullProposal.decided_value (fp : FullProposal) (commits : Commits) :
    Option DecidedValueBody :=
  match fp.proposed_value with
  | some (.blockPayload b) => some (.blockValue b commits)
  | some (.shardPayload s) => some (.shardValue s commits)
  | none => none

/-- Oracle model of the `ShardValidator` queries the Host handler makes:
`get_proposed_value` (the buffer of full proposals keyed by value id),
`get_validator_set` (keyed by height as u64), `get_address`,
`propose_value` and `next_height_delay`. -/
structure ShardValidator where
  proposed_values : ShardHash → Option FullProposal
  validator_sets : Nat → ValidatorSet
  address : Bytes
  propose_result : Height → Int → FullProposal
  delay_for_block_time : Nat → Nat

/-- The externally visible effects a `HostMsg` handler emits: casts to the
consensus actor, calls into the shard validator, gossip sends and network
publishes, in program order. -/
inductive HostEffect where
  | startHeight (height : Height) (vset : ValidatorSet)
  | scheduledStartHeight (delay : Nat) (height : Height) (vset : ValidatorSet)
  | decideCommit (commits : Commits)
  | broadcastDecidedValue (value : Option DecidedValueBody)
  | publishProposalPart (stream_id : Bytes) (value : FullProposal)
  | replyLocallyProposedValue (height : Height) (round : Int) (value : FullProposal)
deriving DecidableEq, Repr

/-- The `HostMsg::GetValue` arm of `Host::handle_msg`: propose a value,
reply with the locally proposed value, then publish the full value on the
proposal-part stream whose id is the height as 8 big-endian bytes followed
by the round as 8 big-endian bytes. -/
def handle_get_value (sv : ShardValidator) (height : Height) (round : Int) :
    List HostEffect :=
  let value := sv.propose_result height round
  let stream_id := u64_to_be_bytes height.as_u64 ++ i64_to_be_bytes round
  [.replyLocallyProposedValue height round value,
   .publishProposalPart stream_id value]

/-- The `HostMsg::RestreamValue` arm of `Host::handle_msg`: look up the
previously proposed value; when absent only log; when present re-publish
it on the stream keyed by the requested height and round (a
height/round/proposer mismatch is only logged). -/
def handle_restream_value (sv : ShardValidator) (height : Height)
    (round : Int) (value_id : ShardHash) : List HostEffect :=
  match sv.proposed_values value_id with
  | none => []
  | some full_proposal =>
    let stream_id := u64_to_be_bytes height.as_u64 ++ i64_to_be_bytes round
    [.publishProposalPart stream_id full_proposal]

/-- The `HostMsg::Decided` arm of `Host::handle_msg`: look up the buffered
proposal by `certificate.value_id`; when missing, restart the same height
with the validator set for that height and do nothing else; otherwise
decide (commit) the commits, broadcast the decided value only when this
node was the proposer, and schedule the start of the next height. -/
def handle_decided (sv : ShardValidator) (consensus_block_time : Nat)
    (certificate : CommitCertificate) : List HostEffect :=
  match sv.proposed_values certificate.value_id with
  | none =>
    [.startHeight certificate.height
      (sv.validator_sets certificate.height.as_u64)]
  | some proposed_value =>
    let commits := Commits.from_commit_certificate certificate
    let decided := proposed_value.decided_value commits
    let broadcast :=
      if proposed_value.proposer_address = sv.address then
        [HostEffect.broadcastDecidedValue decided]
      else []
    let next_height := certificate.height.increment
    HostEffect.decideCommit commits :: broadcast ++
      [.scheduledStartHeight (sv.delay_for_block_time consensus_block_time)
        next_height (sv.validator_sets next_height.as_u64)]

/-! ## src/connectors/onchain_events/mod.rs : RPC retry loops

Each loop performs an attempt, and on a transport error increments
`retry_count`, gives up when `retry_count > 5`, and otherwise sleeps
`RETRY_TIMEOUT_SECONDS` before the next attempt.  The loops are embedded
as functions of the sequence of attempt outcomes; they return the result,
the number of attempts performed, and the list of sleep durations (one
entry per sleep, in seconds, in order). -/

/-- `RETRY_TIMEOUT_SECONDS` from src/connectors/onchain_events/mod.rs. -/
def RETRY_TIMEOUT_SECONDS : Nat := 10

/-- The error type of the subscriber's RPC operations (the variants the
modelled loops can produce). -/
inductive SubscribeError where
  | transport (code : Nat)
  | unableToFindBlockByHash
  | logMissingBlockNumber
deriving DecidableEq, Repr

/-- Outcome of one `provider.get_logs` round (including the processing of
the returned logs): success or a transport error. -/
inductive LogsAttempt where
  | ok
  | failed (code : Nat)
deriving DecidableEq, Repr

/-- Outcome of one `get_block_by_hash` / `get_block_by_number` call:
a block carrying the requested number, `Ok(None)`, or a transport
error. -/
inductive BlockAttempt where
  | found (value : Nat)
  | missing
  | failed (code : Nat)
deriving DecidableEq, Repr

/-- The loop body of `Subscriber::get_logs_with_retry`, from attempt
index `i` (`retry_count` after a failure of attempt `i` is `i + 1`).
Returns (result, total number of attempts, sleeps performed). -/
def get_logs_retry_go (attempt : Nat → LogsAttempt) (i : Nat) :
    Except SubscribeError Unit × Nat × List Nat :=
  match attempt i with
  | .ok => (.ok (), i + 1, [])
  | .failed e =>
    if _h : i + 1 > 5 then (.error (.transport e), i + 1, [])
    else
      let rest := get_logs_retry_go attempt (i + 1)
      (rest.1, rest.2.1, RETRY_TIMEOUT_SECONDS :: rest.2.2)
termination_by 6 - i

/-- `Subscriber::get_logs_with_retry` from
src/connectors/onchain_events/mod.rs. -/
def get_logs_with_retry (attempt : Nat → LogsAttempt) :
    Except SubscribeError Unit × Nat × List Nat :=
  get_logs_retry_go attempt 0

/-- The loop body of `Subscriber::get_block_timestamp`: `Ok(Some(block))`
returns the header timestamp, `Ok(None)` returns
`UnableToFindBlockByHash` without retrying, transport errors retry. -/
def get_block_timestamp_go (attempt : Nat → BlockAttempt) (i : Nat) :
    Except SubscribeError Nat × Nat × List Nat :=
  match attempt i with
  | .found ts => (.ok ts, i + 1, [])
  | .missing => (.error .unableToFindBlockByHash, i + 1, [])
  | .failed e =>
    if _h : i + 1 > 5 then (.error (.transport e), i + 1, [])
    else
      let rest := get_block_timestamp_go attempt (i + 1)
      (rest.1, rest.2.1, RETRY_TIMEOUT_SECONDS :: rest.2.2)
termination_by 6 - i

/-- `Subscriber::get_block_timestamp` from
src/connectors/onchain_events/mod.rs. -/
def get_block_timestamp (attempt : Nat → BlockAttempt) :
    Except SubscribeError Nat × Nat × List Nat :=
  get_block_timestamp_go attempt 0

/-- The loop body of `Subscriber::latest_block_on_chain`: `Ok(Some)`
returns the header number, `Ok(None)` returns `LogMissingBlockNumber`
without retrying, transport errors retry. -/
def latest_block_on_chain_go (attempt : Nat → BlockAttempt) (i : Nat) :
    Except SubscribeError Nat × Nat × List Nat :=
  match attempt i with
  | .found n => (.ok n, i + 1, [])
  | .missing => (.error .logMissingBlockNumber, i + 1, [])
  | .failed e =>
    if _h : i + 1 > 5 then (.error (.transport e), i + 1, [])
    else
      let rest := latest_block_on_chain_go attempt (i + 1)
      (rest.1, rest.2.1, RETRY_TIMEOUT_SECONDS :: rest.2.2)
termination_by 6 - i

/-- `Subscriber::latest_block_on_chain` from
src/connectors/onchain_events/mod.rs. -/
def latest_block_on_chain (attempt : Nat → BlockAttempt) :
    Except SubscribeError Nat × Nat × List Nat :=
  latest_block_on_chain_go attempt 0

/-! ## src/connectors/onchain_events/mod.rs : decoding Rent logs -/

/-- `RENT_EXPIRY_IN_SECONDS` from src/connectors/onchain_events/mod.rs:
`365 * 24 * 60 * 60` (one year). -/
def RENT_EXPIRY_IN_SECONDS : Nat := 365 * 24 * 60 * 60

/-- `StorageRentEventBody` (proto): `payer`, `units` (u32) and `expiry`
(u32). -/
structure StorageRentEventBody where
  payer : Bytes
  units : Nat
  expiry : Nat
deriving DecidableEq, Repr

/-- The `on_chain_event::Body` oneof; only the storage-rent variant is
needed here, the remaining variants are collapsed into an opaque tagged
case. -/
inductive OnChainEventBody where
  | storageRentEventBody (body : StorageRentEventBody)
  | otherEventBody (tag : Nat)
deriving DecidableEq, Repr

/-- Modelled from the spec: `OnChainEventType::EventTypeStorageRent` as an
`i32` (the proto enum is not among the provided sources; the exact numeral
is immaterial). -/
def eventTypeStorageRent : Nat := 4

/-- `OnChainEvent` as built by `Subscriber::add_onchain_event`
(`version` is always 0 there). -/
structure OnChainEvent where
  fid : Nat
  block_number : Nat
  block_hash : Bytes
  block_timestamp : Nat
  log_index : Nat
  tx_index : Nat
  event_type : Nat
  chain_id : Nat
  version : Nat
  body : Option OnChainEventBody
  transaction_hash : Bytes
deriving DecidableEq, Repr

/-- `FnameTransfer` (proto): id, from fid, and the username proof. -/
structure UserNameProof where
  timestamp : Nat
  name : Bytes
  owner : Bytes
  signature : Bytes
  fid : Nat
  proof_type : Nat
deriving DecidableEq, Repr

/-- `FnameTransfer` (proto). -/
structure FnameTransfer where
  id : Nat
  from_fid : Nat
  proof : Option UserNameProof
deriving DecidableEq, Repr

/-- `ValidatorMessage` (proto) as enqueued to the mempool by
`Subscriber::add_onchain_event`. -/
structure ValidatorMessage where
  on_chain_event : Option OnChainEvent
  fname_transfer : Option FnameTransfer
deriving DecidableEq, Repr

/-- A decoded `StorageRegistryAbi::Rent` log: `payer`, `fid` and `units`
(the latter two are `U256` on the wire, hence unbounded here). -/
structure RentLogData where
  payer : Bytes
  fid : Nat
  units : Nat
deriving DecidableEq, Repr

/-- The `Rent` arm of `Subscriber::process_log` composed with
`Subscriber::add_onchain_event`, from
src/connectors/onchain_events/mod.rs: `fid.try_into()?` (U256 → u64) and
`units.try_into()?` (U256 → u32) fail on overflow; `block_number`,
`log_index` and `tx_index` are downcast with `as u32` and the expiry is
`(block_timestamp + RENT_EXPIRY_IN_SECONDS) as u32`.  On success the
resulting `OnChainEvent` is wrapped in a `ValidatorMessage` and sent to
the mempool; the returned value is that message. -/
def process_rent_log (chain_id : Nat) (block_number : Nat)
    (block_hash : Bytes) (block_timestamp : Nat) (log_index : Nat)
    (tx_index : Nat) (transaction_hash : Bytes) (l : RentLogData) :
    Except Unit ValidatorMessage :=
  if l.fid < 2 ^ 64 then
    if l.units < 2 ^ 32 then
      .ok
        { on_chain_event := some
            { fid := l.fid
              block_number := block_number % 2 ^ 32
              block_hash := block_hash
              block_timestamp := block_timestamp
              log_index := log_index % 2 ^ 32
              tx_index := tx_index % 2 ^ 32
              event_type := eventTypeStorageRent
              chain_id := chain_id
              version := 0
              body := some (.storageRentEventBody
                { payer := l.payer
                  units := l.units
                  expiry := (block_timestamp + RENT_EXPIRY_IN_SECONDS)
                    % 2 ^ 32 })
              transaction_hash := transaction_hash }
          fname_transfer := none }
    else .error ()
  else .error ()

/-! ## src/core/validations/verification.rs : FName transfer validation -/

/-- The `ValidationError` variants `validate_fname_transfer` produces. -/
inductive ValidationError where
  | invalidUsername
  | invalidData
  | invalidHash
  | invalidSignature
deriving DecidableEq, Repr

/-- `FarcasterNetwork` (proto enum). -/
inductive FarcasterNetwork where
  | unspecified
  | mainnet
  | testnet
  | devnet
deriving DecidableEq, Repr

/-- `FNAME_SIGNER_ADDRESS` from src/core/validations/verification.rs:
the address `0xBc5274eFc266311015793d89E9B591fa46294741`. -/
def FNAME_SIGNER_ADDRESS : Bytes :=
  [0xBc, 0x52, 0x74, 0xeF, 0xc2, 0x66, 0x31, 0x10, 0x15, 0x79,
   0x3d, 0x89, 0xE9, 0xB5, 0x91, 0xfa, 0x46, 0x29, 0x47, 0x41]

/-- A UTF-8 continuation byte (0x80–0xBF). -/
def utf8_cont (b : Nat) : Bool := 0x80 ≤ b && b ≤ 0xBF

/-- Models `std::str::from_utf8` validity (Rust standard library): the
RFC 3629 well-formed byte sequences. -/
def utf8_valid : Bytes → Bool
  | [] => true
  | b :: rest =>
    if b ≤ 0x7F then utf8_valid rest
    else if 0xC2 ≤ b && b ≤ 0xDF then
      match rest with
      | c1 :: rest2 => utf8_cont c1 && utf8_valid rest2
      | [] => false
    else if b = 0xE0 then
      match rest with
      | c1 :: c2 :: rest2 =>
        (0xA0 ≤ c1 && c1 ≤ 0xBF) && utf8_cont c2 && utf8_valid rest2
      | _ => false
    else if (0xE1 ≤ b && b ≤ 0xEC) || b = 0xEE || b = 0xEF then
      match rest with
      | c1 :: c2 :: rest2 => utf8_cont c1 && utf8_cont c2 && utf8_valid rest2
      | _ => false
    else if b = 0xED then
      match rest with
      | c1 :: c2 :: rest2 =>
        (0x80 ≤ c1 && c1 ≤ 0x9F) && utf8_cont c2 && utf8_valid rest2
      | _ => false
    else if b = 0xF0 then
      match rest with
      | c1 :: c2 :: c3 :: rest2 =>
        (0x90 ≤ c1 && c1 ≤ 0xBF) && utf8_cont c2 && utf8_cont c3 &&
          utf8_valid rest2
      | _ => false
    else if 0xF1 ≤ b && b ≤ 0xF3 then
      match rest with
      | c1 :: c2 :: c3 :: rest2 =>
        utf8_cont c1 && utf8_cont c2 && utf8_cont c3 && utf8_valid rest2
      | _ => false
    else if b = 0xF4 then
      match rest with
      | c1 :: c2 :: c3 :: rest2 =>
        (0x80 ≤ c1 && c1 ≤ 0x8F) && utf8_cont c2 && utf8_cont c3 &&
          utf8_valid rest2
      | _ => false
    else false

/-- Oracle for the external `alloy` EIP-712 machinery that
`validate_fname_transfer` calls: `serde_json::from_value::<TypedData>` on
the UserNameProof json (keyed by the name bytes, timestamp and owner),
`TypedData::eip712_signing_hash`, and
`PrimitiveSignature::recover_address_from_prehash` (64 signature bytes,
recovery parity, prehash). -/
structure Eip712Env where
  typed_data_of : Bytes → Nat → Bytes → Option Nat
  signing_hash : Nat → Option Bytes
  recover_address : Bytes → Bool → Bytes → Option Bytes

/-- `validate_fname_transfer` from src/core/validations/verification.rs.
The outer `Option` models the `transfer.proof.as_ref().unwrap()` panic
when the proof is absent.  The order of checks follows the source:
UTF-8 name, typed-data parse, signing hash, then — before any signature
check — the Devnet early return; only on other networks the 65-byte
length check, address recovery and signer comparison run. -/
def validate_fname_transfer (env : Eip712Env) (transfer : FnameTransfer)
    (network : FarcasterNetwork) (signer_address : Option Bytes) :
    Option (Except ValidationError Unit) :=
  match transfer.proof with
  | none => none
  | some proof =>
    some
      (if utf8_valid proof.name = false then .error .invalidUsername
      else
        match env.typed_data_of proof.name proof.timestamp proof.owner with
        | none => .error .invalidData
        | some td =>
          match env.signing_hash td with
          | none => .error .invalidHash
          | some prehash =>
            if network = FarcasterNetwork.devnet then .ok ()
            else if proof.signature.length ≠ 65 then
              .error .invalidSignature
            else
              let parity := decide (proof.signature.getD 64 0 ≠ 0x1b ∧
                proof.signature.getD 64 0 ≠ 0x00)
              match env.recover_address (proof.signature.take 64) parity
                  prehash with
              | none => .error .invalidSignature
              | some recovered =>
                if recovered ≠ signer_address.getD FNAME_SIGNER_ADDRESS
                then .error .invalidSignature
                else .ok ())

/-! ## proto `Message` model and its wire codec

`Message` / `MessageData` follow the proto definitions (only the
`UsernameProofBody` variant of the body oneof is modelled in full; the
other variants are collapsed into an opaque tagged case, which the claims
never inspect).  The prost protobuf codec is an external library; it is
modelled by a concrete executable self-delimiting serialization with the
property the source relies on: `decode (encode m) = m`. -/

/-- The body oneof of `MessageData`. -/
inductive MessageBody where
  | usernameProofBody (proof : UserNameProof)
  | otherBody (tag : Nat) (payload : Bytes)
deriving DecidableEq, Repr

/-- `MessageData` (proto): `{ fid, type, timestamp, network, body }`. -/
structure MessageData where
  fid : Nat
  msg_type : Nat
  timestamp : Nat
  network : Nat
  body : Option MessageBody
deriving DecidableEq, Repr

/-- `Message` (proto): `{ data, hash, hash_scheme, signature,
signature_scheme, signer, data_bytes }`. -/
structure Message where
  data : Option MessageData
  hash : Bytes
  hash_scheme : Nat
  signature : Bytes
  signature_scheme : Nat
  signer : Bytes
  data_bytes : Option Bytes
deriving DecidableEq, Repr

/-- Codec: a scalar field (models a protobuf varint). -/
def encNat (n : Nat) : Bytes := [n]

/-- Codec: read back a scalar field. -/
def decNat : Bytes → Option (Nat × Bytes)
  | n :: rest => some (n, rest)
  | [] => none

/-- Codec: a length-delimited bytes field. -/
def encBytes (b : Bytes) : Bytes := b.length :: b

/-- Codec: read back a length-delimited bytes field. -/
def decBytes : Bytes → Option (Bytes × Bytes)
  | n :: rest =>
    if n ≤ rest.length then some (rest.take n, rest.drop n) else none
  | [] => none

/-- Codec: an optional field with a presence tag. -/
def encOpt (f : α → Bytes) : Option α → Bytes
  | none => [0]
  | some x => 1 :: f x

/-- Codec: read back an optional field. -/
def decOpt (f : Bytes → Option (α × Bytes)) : Bytes → Option (Option α × Bytes)
  | 0 :: rest => some (none, rest)
  | 1 :: rest =>
    match f rest with
    | some (x, r) => some (some x, r)
    | none => none
  | _ => none

/-- Codec: a `UserNameProof` record. -/
def encUserNameProof (p : UserNameProof) : Bytes :=
  encNat p.timestamp ++ encBytes p.name ++ encBytes p.owner ++
    encBytes p.signature ++ encNat p.fid ++ encNat p.proof_type

/-- Codec: read back a `UserNameProof` record. -/
def decUserNameProof (l : Bytes) : Option (UserNameProof × Bytes) :=
  match decNat l with
  | none => none
  | some (ts, r1) =>
    match decBytes r1 with
    | none => none
    | some (name, r2) =>
      match decBytes r2 with
      | none => none
      | some (owner, r3) =>
        match decBytes r3 with
        | none => none
        | some (sig, r4) =>
          match decNat r4 with
          | none => none
          | some (fid, r5) =>
            match decNat r5 with
            | none => none
            | some (pt, r6) => some (⟨ts, name, owner, sig, fid, pt⟩, r6)

/-- Codec: the body oneof. -/
def encBody : MessageBody → Bytes
  | .usernameProofBody p => 1 :: encUserNameProof p
  | .otherBody t pl => 2 :: (encNat t ++ encBytes pl)

/-- Codec: read back the body oneof. -/
def decBody : Bytes → Option (MessageBody × Bytes)
  | 1 :: rest =>
    match decUserNameProof rest with
    | some (p, r) => some (.usernameProofBody p, r)
    | none => none
  | 2 :: rest =>
    match decNat rest with
    | none => none
    | some (t, r1) =>
      match decBytes r1 with
      | none => none
      | some (pl, r2) => some (.otherBody t pl, r2)
  | _ => none

/-- Codec: a `MessageData` record. -/
def encMessageData (d : MessageData) : Bytes :=
  encNat d.fid ++ encNat d.msg_type ++ encNat d.timestamp ++
    encNat d.network ++ encOpt encBody d.body

/-- Codec: read back a `MessageData` record. -/
def decMessageData (l : Bytes) : Option (MessageData × Bytes) :=
  match decNat l with
  | none => none
  | some (fid, r1) =>
    match decNat r1 with
    | none => none
    | some (ty, r2) =>
      match decNat r2 with
      | none => none
      | some (ts, r3) =>
        match decNat r3 with
        | none => none
        | some (nw, r4) =>
          match decOpt decBody r4 with
          | none => none
          | some (body, r5) => some (⟨fid, ty, ts, nw, body⟩, r5)

/-- `MessageData::encode_to_vec` (prost model). -/
def MessageData.encode_to_vec (d : MessageData) : Bytes :=
  encMessageData d

/-- `MessageData::decode` (prost model): the whole buffer must parse. -/
def MessageData.decode (bytes : Bytes) : Option MessageData :=
  match decMessageData bytes with
  | some (d, []) => some d
  | _ => none

/-- Codec: a `Message` record. -/
def encMessage (m : Message) : Bytes :=
  encOpt encMessageData m.data ++ encBytes m.hash ++
    encNat m.hash_scheme ++ encBytes m.signature ++
    encNat m.signature_scheme ++ encBytes m.signer ++
    encOpt encBytes m.data_bytes

/-- Codec: read back a `Message` record. -/
def decMessage (l : Bytes) : Option (Message × Bytes) :=
  match decOpt decMessageData l with
  | none => none
  | some (data, r1) =>
    match decBytes r1 with
    | none => none
    | some (hash, r2) =>
      match decNat r2 with
      | none => none
      | some (hs, r3) =>
        match decBytes r3 with
        | none => none
        | some (sig, r4) =>
          match decNat r4 with
          | none => none
          | some (ss, r5) =>
            match decBytes r5 with
            | none => none
            | some (signer, r6) =>
              match decOpt decBytes r6 with
              | none => none
              | some (db, r7) =>
                some (⟨data, hash, hs, sig, ss, signer, db⟩, r7)

/-- `Message::encode_to_vec` (prost model). -/
def Message.encode_to_vec (m : Message) : Bytes :=
  encMessage m

/-- `Message::decode` (prost model): the whole buffer must parse. -/
def Message.decode (bytes : Bytes) : Option Message :=
  match decMessage bytes with
  | some (m, []) => some m
  | _ => none

/-! ## src/storage/store/account/message.rs : message codec wrappers -/

/-- `RocksdbError::DecodeError`. -/
inductive RocksdbError where
  | decodeError
deriving DecidableEq, Repr

/-- `message_encode` from src/storage/store/account/message.rs: when
`data_bytes` is present and non-empty, re-encode a clone of the message
with the `data` field cleared to `None`; otherwise the plain protobuf
encoding. -/
def message_encode (message : Message) : Bytes :=
  if message.data_bytes.isSome ∧ (message.data_bytes.getD []).length > 0
  then
    Message.encode_to_vec { message with data := none }
  else
    Message.encode_to_vec message

/-- `message_bytes_decode` from src/storage/store/account/message.rs: when
`data_bytes` is present and non-empty, repopulate `data` by decoding
`data_bytes` (clearing it when the decode fails). -/
def message_bytes_decode (msg : Message) : Message :=
  if msg.data_bytes.isSome ∧ (msg.data_bytes.getD []).length > 0 then
    match MessageData.decode (msg.data_bytes.getD []) with
    | some msg_data => { msg with data := some msg_data }
    | none => { msg with data := none }
  else
    msg

/-- `message_decode` from src/storage/store/account/message.rs. -/
def message_decode (bytes : Bytes) : Except RocksdbError Message :=
  match Message.decode bytes with
  | some msg => .ok (message_bytes_decode msg)
  | none => .error .decodeError

/-! ## src/storage/store/account : keys, storage model, username proofs -/

/-- `HubError` : `{ code, message }`. -/
structure HubError where
  code : String
  message : String
deriving DecidableEq, Repr

/-- `TS_HASH_LENGTH` from src/storage/store/account/message.rs. -/
def TS_HASH_LENGTH : Nat := 24

/-- `HASH_LENGTH` from src/storage/store/account/message.rs. -/
def HASH_LENGTH : Nat := 20

/-- `make_ts_hash` from src/storage/store/account/message.rs: the
timestamp as 4 big-endian bytes followed by the 20-byte hash; errors when
the hash is not 20 bytes. -/
def make_ts_hash (timestamp : Nat) (hash : Bytes) :
    Except HubError Bytes :=
  if hash.length ≠ HASH_LENGTH then
    .error { code := "internal_error",
             message := "hash length is not 20" }
  else
    .ok (u32_to_be_bytes timestamp ++ hash)

/-- Modelled from the spec: the `RootPrefix::User` tag byte
(src/storage/constants.rs is not among the provided sources; the exact
numeral is immaterial, only its fixed place in the key layout). -/
def rootUserByte : Nat := 1

/-- Modelled from the spec: the `RootPrefix::UserNameProofByName` tag
byte (src/storage/constants.rs is not among the provided sources). -/
def rootUserNameProofByNameByte : Nat := 27

/-- Modelled from the spec: `UserPostfix::UsernameProofMessage.as_u8()`,
the set tag of the username-proof message store
(src/storage/constants.rs is not among the provided sources). -/
def usernameProofMessageByte : Nat := 7

/-- Modelled from the spec: `UserPostfix::UserNameProofAdds.as_u8()`, the
set tag of the username-proof add-index
(src/storage/constants.rs is not among the provided sources). -/
def userNameProofAddsByte : Nat := 99

/-- `MessageType::UsernameProof as u8` (proto enum value 12). -/
def usernameProofMessageType : Nat := 12

/-- `MessageType::None as u8` (proto enum value 0). -/
def noneMessageType : Nat := 0

/-- `make_user_key` from src/storage/store/account/message.rs:
`RootPrefix::User ∥ fid_be32`. -/
def make_user_key (fid : Nat) : Bytes :=
  rootUserByte :: make_fid_key fid

/-- `make_message_primary_key` from
src/storage/store/account/message.rs: `user_key ∥ set ∥ ts_hash?`. -/
def make_message_primary_key (fid : Nat) (set : Nat)
    (ts_hash : Option Bytes) : Bytes :=
  make_user_key fid ++ [set] ++ ts_hash.getD []

/-- The rocksdb database, modelled as the partial map `RocksDB::get`
denotes. -/
structure RocksDB where
  get : Bytes → Option Bytes

/-- `RocksDbTransactionBatch`: a map of pending writes; an entry is a put
(`some value`) or a delete (`none`), absent keys fall through to the
database. -/
structure RocksDbTransactionBatch where
  batch : Bytes → Option (Option Bytes)

/-- `get_from_db_or_txn` from src/storage/store/account/message.rs: check
the transaction batch first, else read the database. -/
def get_from_db_or_txn (db : RocksDB) (txn : RocksDbTransactionBatch)
    (key : Bytes) : Option Bytes :=
  match txn.batch key with
  | some value => value
  | none => db.get key

/-- `get_message_by_key` from src/storage/store/account/message.rs. -/
def get_message_by_key (db : RocksDB) (txn : RocksDbTransactionBatch)
    (key : Bytes) : Except HubError (Option Message) :=
  match get_from_db_or_txn db txn key with
  | some bytes =>
    match message_decode bytes with
    | .ok message => .ok (some message)
    | .error _ =>
      .error { code := "internal_error", message := "decode error" }
  | none => .ok none

/-- `get_message` from src/storage/store/account/message.rs. -/
def get_message (db : RocksDB) (txn : RocksDbTransactionBatch)
    (fid : Nat) (set : Nat) (ts_hash : Bytes) :
    Except HubError (Option Message) :=
  get_message_by_key db txn (make_message_primary_key fid set (some ts_hash))

/-- Modelled from the spec: `util::vec_to_u8_24`
(src/storage/util.rs is not among the provided sources): converts an
optional byte vector into a fixed 24-byte ts_hash, failing when it is
absent or of the wrong length. -/
def vec_to_u8_24 (v : Option Bytes) : Except HubError Bytes :=
  match v with
  | some bytes =>
    if bytes.length = TS_HASH_LENGTH then .ok bytes
    else .error { code := "internal_error",
                  message := "unexpected ts_hash length" }
  | none => .error { code := "internal_error",
                     message := "ts_hash missing" }

/-- Lexicographic comparison of byte vectors (Rust `Vec<u8>` `Ord`),
as the sign −1 / 0 / 1. -/
def bytes_compare : Bytes → Bytes → Int
  | [], [] => 0
  | [], _ :: _ => -1
  | _ :: _, [] => 1
  | a :: as2, b :: bs2 =>
    if a < b then -1 else if b < a then 1 else bytes_compare as2 bs2

/-- Modelled from the spec: `StoreDef::message_compare` (the default
implementation in src/storage/store/account/store.rs is not among the
provided sources).  Merge priority per the spec: higher timestamp wins;
on equal timestamps a Remove beats an Add; for the same type and equal
timestamps the lexicographically greater hash wins.  Since
`ts_hash = timestamp_be(4) ∥ hash(20)`, the timestamp comparison is the
lexicographic comparison of the first four bytes and the hash comparison
that of the rest. -/
def message_compare (remove_ty : Nat) (type_a : Nat) (ts_hash_a : Bytes)
    (type_b : Nat) (ts_hash_b : Bytes) : Int :=
  let ts_cmp := bytes_compare (ts_hash_a.take 4) (ts_hash_b.take 4)
  if ts_cmp ≠ 0 then ts_cmp
  else if type_a = type_b then
    bytes_compare (ts_hash_a.drop 4) (ts_hash_b.drop 4)
  else if type_a = remove_ty then 1
  else -1

/-- `UsernameProofStoreDef::make_username_proof_by_name_key` from
src/storage/store/account/username_proof_store.rs:
`RootPrefix::UserNameProofByName ∥ name`. -/
def make_username_proof_by_name_key (name : Bytes) : Bytes :=
  rootUserNameProofByNameByte :: name

/-- `UsernameProofStoreDef::make_username_proof_by_fid_key` from
src/storage/store/account/username_proof_store.rs:
`user_key(fid) ∥ UserPostfix::UserNameProofAdds ∥ name`. -/
def make_username_proof_by_fid_key (fid : Nat) (name : Bytes) : Bytes :=
  make_user_key fid ++ [userNameProofAddsByte] ++ name

/-- `UsernameProofStoreDef::get_merge_conflicts` from
src/storage/store/account/username_proof_store.rs: look up the by-name
index; when it names a positive fid, fetch that fid's stored proof for
the same name and compare merge priorities: strictly greater existing
priority is a `bad_request.conflict` error, equal priority a
`bad_request.duplicate` error, otherwise the existing message is the
single conflict.  The `?` on `vec_to_u8_24` propagates its error; a
missing or undecodable stored message falls through to no conflicts. -/
def username_proof_get_merge_conflicts (db : RocksDB)
    (txn : RocksDbTransactionBatch) (message : Message)
    (ts_hash : Bytes) : Except HubError (List Message) :=
  match message.data with
  | none =>
    .error { code := "bad_request.validation_failure",
             message := "Message data is missing" }
  | some data =>
    match data.body with
    | some (.usernameProofBody body) =>
      let by_name_key := make_username_proof_by_name_key body.name
      match get_from_db_or_txn db txn by_name_key with
      | some fid_bytes =>
        let fid := read_fid_key fid_bytes 0
        if fid > 0 then
          let existing_add_key := make_username_proof_by_fid_key fid body.name
          let existing_message_ts_hash :=
            get_from_db_or_txn db txn existing_add_key
          match vec_to_u8_24 existing_message_ts_hash with
          | .error e => .error e
          | .ok ts24 =>
            match get_message db txn fid usernameProofMessageByte ts24 with
            | .ok (some existing_message) =>
              let cmp := message_compare noneMessageType
                usernameProofMessageType ts24
                usernameProofMessageType ts_hash
              if cmp > 0 then
                .error { code := "bad_request.conflict",
                         message :=
                           "message conflicts with a more recent add" }
              else if cmp = 0 then
                .error { code := "bad_request.duplicate",
                         message := "message has already been merged" }
              else .ok [existing_message]
            | _ => .ok []
        else .ok []
      | none => .ok []
    | _ =>
      .error { code := "bad_request.validation_failure",
               message := "Message data body is missing" }

/-! ### Concrete fixtures used to evaluate the store model -/

/-- A stored username proof for "a" (0x61) at timestamp 100, fid 1. -/
def sampleExistingMessage : Message :=
  ⟨some ⟨1, 12, 100, 1, some (.usernameProofBody ⟨100, [97], [], [], 1, 6⟩)⟩,
    List.replicate 20 0, 1, List.replicate 64 0, 1, List.replicate 32 0,
    none⟩

/-- The stored proof's ts_hash: `be32(100) ∥ hash(20)`. -/
def sampleEts : Bytes := u32_to_be_bytes 100 ++ List.replicate 20 0

/-- An incoming username proof for the same name at timestamp 50, fid 2. -/
def sampleIncoming : Message :=
  ⟨some ⟨2, 12, 50, 1, some (.usernameProofBody ⟨50, [97], [], [], 2, 6⟩)⟩,
    List.replicate 20 1, 1, List.replicate 64 0, 1, List.replicate 32 0,
    none⟩

/-- The incoming message's ts_hash: `be32(50) ∥ hash(20)`. -/
def sampleTsHash : Bytes := u32_to_be_bytes 50 ++ List.replicate 20 1

/-- A database holding the by-name index entry, the by-fid add entry and
the stored proof message for `sampleExistingMessage`. -/
def sampleDb : RocksDB :=
  ⟨fun key =>
    if key = make_username_proof_by_name_key [97] then
      some (make_fid_key 1)
    else if key = make_username_proof_by_fid_key 1 [97] then
      some sampleEts
    else if key = make_message_primary_key 1 usernameProofMessageByte
        (some sampleEts) then
      some (Message.encode_to_vec sampleExistingMessage)
    else none⟩

/-- An empty transaction batch. -/
def emptyTxn : RocksDbTransactionBatch := ⟨fun _ => none⟩

end Snapchain

namespace Snapchain

/-! ## Theorems -/

/-- C3: the on-disk fid key is exactly 4 bytes, the big-endian encoding of
the fid truncated to 32 bits; for every fid ≤ 2³²−1,
`read_fid_key (make_fid_key fid) 0 = fid`, and the truncation in
`make_fid_key` makes fids above 2³²−1 collide with their value mod 2³². -/
theorem fid_key_roundtrip (fid : Nat) :
    (make_fid_key fid).length = 4 ∧
    (fid ≤ 2 ^ 32 - 1 → read_fid_key (make_fid_key fid) 0 = fid) ∧
    make_fid_key fid = make_fid_key (fid % 2 ^ 32) := by
  refine ⟨rfl, ?_, ?_⟩
  · intro h
    simp only [read_fid_key, make_fid_key, u32_to_be_bytes, be_bytes_to_nat,
      FID_BYTES, List.drop, List.take, List.foldl]
    omega
  · simp only [make_fid_key, Nat.mod_mod_of_dvd, Nat.mod_mod]

/-- Witness for `fid_key_roundtrip` at fid = 4294967295 (= 2³²−1). -/
theorem fid_key_roundtrip_witness :
    (4294967295 : Nat) ≤ 2 ^ 32 - 1 ∧
      read_fid_key (make_fid_key 4294967295) 0 = 4294967295 :=
  ⟨by decide, (fid_key_roundtrip 4294967295).2.1 (by decide)⟩

/-- C10: the per-chain `latest_block_number` persisted by the subscriber is
monotonically non-decreasing: `record_block_number` writes the given block
number only when it is strictly greater than the stored value (missing
treated as 0), so no call ever lowers the stored value; the stored value
after a call is the maximum of the old value and the argument. -/
theorem record_block_number_monotone (store : LocalStateStore)
    (block_number : Nat) :
    latest_block_in_db (record_block_number store block_number) =
      max (latest_block_in_db store) block_number ∧
    latest_block_in_db store ≤
      latest_block_in_db (record_block_number store block_number) ∧
    (record_block_number store block_number ≠ store →
      block_number > latest_block_in_db store) := by
  unfold record_block_number
  by_cases h : block_number > latest_block_in_db store
  · rw [if_pos h]
    refine ⟨?_, ?_, fun _ => h⟩
    · simp only [latest_block_in_db, Option.getD_some] at h ⊢
      omega
    · simp only [latest_block_in_db, Option.getD_some] at h ⊢
      omega
  · rw [if_neg h]
    exact ⟨by omega, le_refl _, fun hc => absurd rfl hc⟩

/-- Bounds for the `get_logs_with_retry` loop from attempt index `i`:
the attempt count and the sleep list are tied together (one
`RETRY_TIMEOUT_SECONDS` sleep per retry). -/
theorem get_logs_retry_go_bounds (attempt : Nat → LogsAttempt) (i : Nat) :
    (get_logs_retry_go attempt i).2.1 ≤ max 6 (i + 1) ∧
    i + 1 ≤ (get_logs_retry_go attempt i).2.1 ∧
    (get_logs_retry_go attempt i).2.2 =
      List.replicate ((get_logs_retry_go attempt i).2.1 - (i + 1))
        RETRY_TIMEOUT_SECONDS := by
  induction i using get_logs_retry_go.induct attempt with
  | case1 i h => simp [get_logs_retry_go, h]
  | case2 i e h hgt => simp [get_logs_retry_go, h, hgt]
  | case3 i e h hgt ih =>
    rw [get_logs_retry_go]
    simp only [h, hgt, dite_false, dif_neg]
    obtain ⟨ih1, ih2, ih3⟩ := ih
    refine ⟨by omega, by omega, ?_⟩
    simp only [ih3]
    have h2 : (get_logs_retry_go attempt (i + 1)).2.1 - (i + 1 + 1) + 1 =
        (get_logs_retry_go attempt (i + 1)).2.1 - (i + 1) := by omega
    rw [← List.replicate_succ, h2]

/-- Bounds for the `get_block_timestamp` loop from attempt index `i`. -/
theorem get_block_timestamp_go_bounds (attempt : Nat → BlockAttempt)
    (i : Nat) :
    (get_block_timestamp_go attempt i).2.1 ≤ max 6 (i + 1) ∧
    i + 1 ≤ (get_block_timestamp_go attempt i).2.1 ∧
    (get_block_timestamp_go attempt i).2.2 =
      List.replicate ((get_block_timestamp_go attempt i).2.1 - (i + 1))
        RETRY_TIMEOUT_SECONDS := by
  induction i using get_block_timestamp_go.induct attempt with
  | case1 i ts h => simp [get_block_timestamp_go, h]
  | case2 i h => simp [get_block_timestamp_go, h]
  | case3 i e h hgt => simp [get_block_timestamp_go, h, hgt]
  | case4 i e h hgt ih =>
    rw [get_block_timestamp_go]
    simp only [h, hgt, dite_false, dif_neg]
    obtain ⟨ih1, ih2, ih3⟩ := ih
    refine ⟨by omega, by omega, ?_⟩
    simp only [ih3]
    have h2 : (get_block_timestamp_go attempt (i + 1)).2.1 - (i + 1 + 1) + 1
        = (get_block_timestamp_go attempt (i + 1)).2.1 - (i + 1) := by omega
    rw [← List.replicate_succ, h2]

/-- Bounds for the `latest_block_on_chain` loop from attempt index `i`. -/
theorem latest_block_on_chain_go_bounds (attempt : Nat → BlockAttempt)
    (i : Nat) :
    (latest_block_on_chain_go attempt i).2.1 ≤ max 6 (i + 1) ∧
    i + 1 ≤ (latest_block_on_chain_go attempt i).2.1 ∧
    (latest_block_on_chain_go attempt i).2.2 =
      List.replicate ((latest_block_on_chain_go attempt i).2.1 - (i + 1))
        RETRY_TIMEOUT_SECONDS := by
  induction i using latest_block_on_chain_go.induct attempt with
  | case1 i n h => simp [latest_block_on_chain_go, h]
  | case2 i h => simp [latest_block_on_chain_go, h]
  | case3 i e h hgt => simp [latest_block_on_chain_go, h, hgt]
  | case4 i e h hgt ih =>
    rw [latest_block_on_chain_go]
    simp only [h, hgt, dite_false, dif_neg]
    obtain ⟨ih1, ih2, ih3⟩ := ih
    refine ⟨by omega, by omega, ?_⟩
    simp only [ih3]
    have h2 : (latest_block_on_chain_go attempt (i + 1)).2.1 - (i + 1 + 1)
        + 1 = (latest_block_on_chain_go attempt (i + 1)).2.1 - (i + 1) := by
      omega
    rw [← List.replicate_succ, h2]

/-- C8: each external-chain RPC operation (`get_logs_with_retry`,
`get_block_timestamp`, `latest_block_on_chain`) is retried at most 5 times
after the initial attempt (so at most 6 attempts in total), with exactly
one 10-second sleep before each retry; and when the first six attempts all
fail with transport errors, the error of the 6th call (the 5th retry) is
returned to the caller instead of retrying further. -/
theorem rpc_retry_budget (la : Nat → LogsAttempt)
    (ba bb : Nat → BlockAttempt) (e : Nat → Nat) :
    ((get_logs_with_retry la).2.1 ≤ 6 ∧
      (get_logs_with_retry la).2.2 =
        List.replicate ((get_logs_with_retry la).2.1 - 1)
          RETRY_TIMEOUT_SECONDS) ∧
    ((get_block_timestamp ba).2.1 ≤ 6 ∧
      (get_block_timestamp ba).2.2 =
        List.replicate ((get_block_timestamp ba).2.1 - 1)
          RETRY_TIMEOUT_SECONDS) ∧
    ((latest_block_on_chain bb).2.1 ≤ 6 ∧
      (latest_block_on_chain bb).2.2 =
        List.replicate ((latest_block_on_chain bb).2.1 - 1)
          RETRY_TIMEOUT_SECONDS) ∧
    ((∀ i, i ≤ 5 → la i = .failed (e i)) →
      get_logs_with_retry la =
        (.error (.transport (e 5)), 6,
          List.replicate 5 RETRY_TIMEOUT_SECONDS)) ∧
    ((∀ i, i ≤ 5 → ba i = .failed (e i)) →
      get_block_timestamp ba =
        (.error (.transport (e 5)), 6,
          List.replicate 5 RETRY_TIMEOUT_SECONDS)) ∧
    ((∀ i, i ≤ 5 → bb i = .failed (e i)) →
      latest_block_on_chain bb =
        (.error (.transport (e 5)), 6,
          List.replicate 5 RETRY_TIMEOUT_SECONDS)) := by
  refine ⟨?_, ?_, ?_, ?_, ?_, ?_⟩
  · have h := get_logs_retry_go_bounds la 0
    exact ⟨by simpa [get_logs_with_retry] using h.1,
      by simpa [get_logs_with_retry] using h.2.2⟩
  · have h := get_block_timestamp_go_bounds ba 0
    exact ⟨by simpa [get_block_timestamp] using h.1,
      by simpa [get_block_timestamp] using h.2.2⟩
  · have h := latest_block_on_chain_go_bounds bb 0
    exact ⟨by simpa [latest_block_on_chain] using h.1,
      by simpa [latest_block_on_chain] using h.2.2⟩
  · intro h
    have h0 := h 0 (by omega)
    have h1 := h 1 (by omega)
    have h2 := h 2 (by omega)
    have h3 := h 3 (by omega)
    have h4 := h 4 (by omega)
    have h5 := h 5 (by omega)
    unfold get_logs_with_retry
    rw [get_logs_retry_go, h0]
    rw [get_logs_retry_go, h1]
    rw [get_logs_retry_go, h2]
    rw [get_logs_retry_go, h3]
    rw [get_logs_retry_go, h4]
    rw [get_logs_retry_go, h5]
    simp [List.replicate]
  · intro h
    have h0 := h 0 (by omega)
    have h1 := h 1 (by omega)
    have h2 := h 2 (by omega)
    have h3 := h 3 (by omega)
    have h4 := h 4 (by omega)
    have h5 := h 5 (by omega)
    unfold get_block_timestamp
    rw [get_block_timestamp_go, h0]
    rw [get_block_timestamp_go, h1]
    rw [get_block_timestamp_go, h2]
    rw [get_block_timestamp_go, h3]
    rw [get_block_timestamp_go, h4]
    rw [get_block_timestamp_go, h5]
    simp [List.replicate]
  · intro h
    have h0 := h 0 (by omega)
    have h1 := h 1 (by omega)
    have h2 := h 2 (by omega)
    have h3 := h 3 (by omega)
    have h4 := h 4 (by omega)
    have h5 := h 5 (by omega)
    unfold latest_block_on_chain
    rw [latest_block_on_chain_go, h0]
    rw [latest_block_on_chain_go, h1]
    rw [latest_block_on_chain_go, h2]
    rw [latest_block_on_chain_go, h3]
    rw [latest_block_on_chain_go, h4]
    rw [latest_block_on_chain_go, h5]
    simp [List.replicate]

/-- Witness for `rpc_retry_budget` with every attempt failing: all three
loops return the 6th attempt's transport error after 6 attempts and 5
ten-second sleeps. -/
theorem rpc_retry_budget_witness :
    (∀ i, i ≤ 5 → (fun j => LogsAttempt.failed j) i =
      LogsAttempt.failed i) ∧
    get_logs_with_retry (fun j => LogsAttempt.failed j) =
      (.error (.transport 5), 6, List.replicate 5 RETRY_TIMEOUT_SECONDS) ∧
    get_block_timestamp (fun j => BlockAttempt.failed j) =
      (.error (.transport 5), 6, List.replicate 5 RETRY_TIMEOUT_SECONDS) ∧
    latest_block_on_chain (fun j => BlockAttempt.failed j) =
      (.error (.transport 5), 6, List.replicate 5 RETRY_TIMEOUT_SECONDS) :=
  ⟨fun _ _ => rfl,
    (rpc_retry_budget (fun j => LogsAttempt.failed j)
      (fun j => BlockAttempt.failed j) (fun j => BlockAttempt.failed j)
      (fun j => j)).2.2.2.1 (fun _ _ => rfl),
    (rpc_retry_budget (fun j => LogsAttempt.failed j)
      (fun j => BlockAttempt.failed j) (fun j => BlockAttempt.failed j)
      (fun j => j)).2.2.2.2.1 (fun _ _ => rfl),
    (rpc_retry_budget (fun j => LogsAttempt.failed j)
      (fun j => BlockAttempt.failed j) (fun j => BlockAttempt.failed j)
      (fun j => j)).2.2.2.2.2 (fun _ _ => rfl)⟩

/-- C1: when the Host receives `Decided(certificate)` and no buffered
`FullProposal` matches `certificate.value_id`, it commits nothing (no
`decide` call, no decided-value broadcast) and re-issues `StartHeight` for
`certificate.height` itself — the same height, not `height+1` — with the
validator set effective at that height. -/
theorem decided_missing_proposal_restarts_same_height
    (sv : ShardValidator) (block_time : Nat) (cert : CommitCertificate)
    (h : sv.proposed_values cert.value_id = none) :
    handle_decided sv block_time cert =
      [HostEffect.startHeight cert.height
        (sv.validator_sets cert.height.as_u64)] ∧
    (∀ c, HostEffect.decideCommit c ∉ handle_decided sv block_time cert) ∧
    (∀ v, HostEffect.broadcastDecidedValue v ∉
      handle_decided sv block_time cert) ∧
    cert.height ≠ cert.height.increment := by
  have heq : handle_decided sv block_time cert =
      [HostEffect.startHeight cert.height
        (sv.validator_sets cert.height.as_u64)] := by
    unfold handle_decided
    rw [h]
  refine ⟨heq, ?_, ?_, ?_⟩
  · intro c hc
    rw [heq] at hc
    simp at hc
  · intro v hv
    rw [heq] at hv
    simp at hv
  · intro hcontra
    have : cert.height.block_number = cert.height.block_number + 1 := by
      exact congrArg Height.block_number hcontra
    omega

/-- Witness for `decided_missing_proposal_restarts_same_height` on a
concrete validator state with an empty proposal buffer. -/
theorem decided_missing_proposal_restarts_same_height_witness :
    (ShardValidator.mk (fun _ => none) (fun _ => ⟨[]⟩) [] (fun h r =>
        ⟨h, r, [], none⟩) (fun _ => 0)).proposed_values ⟨1, [7]⟩ = none ∧
    handle_decided
        (ShardValidator.mk (fun _ => none) (fun _ => ⟨[]⟩) [] (fun h r =>
          ⟨h, r, [], none⟩) (fun _ => 0)) 1000 ⟨⟨1, 5⟩, 0, ⟨1, [7]⟩⟩ =
      [HostEffect.startHeight ⟨1, 5⟩ ⟨[]⟩] :=
  ⟨rfl,
    (decided_missing_proposal_restarts_same_height
      (ShardValidator.mk (fun _ => none) (fun _ => ⟨[]⟩) [] (fun h r =>
        ⟨h, r, [], none⟩) (fun _ => 0)) 1000 ⟨⟨1, 5⟩, 0, ⟨1, [7]⟩⟩ rfl).1⟩

/-- C5: every proposal-part stream published by the Host (both from
`GetValue` and from `RestreamValue`) uses as `StreamId` exactly the
16-byte concatenation of the height as an 8-byte big-endian integer
followed by the round as an 8-byte big-endian integer. -/
theorem proposal_stream_id_layout
    (sv : ShardValidator) (height : Height) (round : Int)
    (value_id : ShardHash) :
    (∀ sid fp, HostEffect.publishProposalPart sid fp ∈
        handle_get_value sv height round →
      sid = u64_to_be_bytes height.as_u64 ++ i64_to_be_bytes round ∧
      sid.length = 16) ∧
    (∀ sid fp, HostEffect.publishProposalPart sid fp ∈
        handle_restream_value sv height round value_id →
      sid = u64_to_be_bytes height.as_u64 ++ i64_to_be_bytes round ∧
      sid.length = 16) := by
  constructor
  · intro sid fp hmem
    simp only [handle_get_value, List.mem_cons, List.mem_singleton,
      List.not_mem_nil, or_false] at hmem
    rcases hmem with hmem | hmem
    · exact absurd hmem (by simp)
    · have hsid : sid = u64_to_be_bytes height.as_u64 ++
          i64_to_be_bytes round := by
        injection hmem
      refine ⟨hsid, ?_⟩
      rw [hsid]
      simp [u64_to_be_bytes, i64_to_be_bytes]
  · intro sid fp hmem
    unfold handle_restream_value at hmem
    rcases hcase : sv.proposed_values value_id with _ | fp2
    · rw [hcase] at hmem
      simp at hmem
    · rw [hcase] at hmem
      simp only [List.mem_singleton] at hmem
      have hsid : sid = u64_to_be_bytes height.as_u64 ++
          i64_to_be_bytes round := by
        injection hmem
      refine ⟨hsid, ?_⟩
      rw [hsid]
      simp [u64_to_be_bytes, i64_to_be_bytes]

/-- Witness for `proposal_stream_id_layout` at height (1, 3), round 2:
the published stream id is the 16 bytes `be64(3) ∥ be64(2)`. -/
theorem proposal_stream_id_layout_witness :
    HostEffect.publishProposalPart
        ([0, 0, 0, 0, 0, 0, 0, 3] ++ [0, 0, 0, 0, 0, 0, 0, 2])
        (⟨⟨1, 3⟩, 2, [], none⟩ : FullProposal) ∈
      handle_get_value
        (ShardValidator.mk (fun _ => none) (fun _ => ⟨[]⟩) [] (fun h r =>
          ⟨h, r, [], none⟩) (fun _ => 0)) ⟨1, 3⟩ 2 ∧
    ([0, 0, 0, 0, 0, 0, 0, 3] ++ [0, 0, 0, 0, 0, 0, 0, 2] : Bytes) =
        u64_to_be_bytes (Height.as_u64 ⟨1, 3⟩) ++ i64_to_be_bytes 2 ∧
    ([0, 0, 0, 0, 0, 0, 0, 3] ++ [0, 0, 0, 0, 0, 0, 0, 2] : Bytes).length
        = 16 := by
  refine ⟨by decide, ?_⟩
  exact (proposal_stream_id_layout
    (ShardValidator.mk (fun _ => none) (fun _ => ⟨[]⟩) [] (fun h r =>
      ⟨h, r, [], none⟩) (fun _ => 0)) ⟨1, 3⟩ 2 ⟨0, []⟩).1
    ([0, 0, 0, 0, 0, 0, 0, 3] ++ [0, 0, 0, 0, 0, 0, 0, 2])
    ⟨⟨1, 3⟩, 2, [], none⟩ (by decide)

/-- C6: on `Decided` with a buffered proposal, the Host commits (calls
`decide`) and broadcasts the decided value to the decided-value gossip
topic exactly when the buffered proposal's proposer address equals this
node's own validator address; a non-proposer node emits no
`BroadcastDecidedValue` gossip event. -/
theorem decided_broadcast_only_by_proposer
    (sv : ShardValidator) (block_time : Nat) (cert : CommitCertificate)
    (fp : FullProposal)
    (h : sv.proposed_values cert.value_id = some fp) :
    HostEffect.decideCommit (Commits.from_commit_certificate cert) ∈
      handle_decided sv block_time cert ∧
    ((∃ v, HostEffect.broadcastDecidedValue v ∈
        handle_decided sv block_time cert) ↔
      fp.proposer_address = sv.address) := by
  unfold handle_decided
  rw [h]
  dsimp only
  by_cases hp : fp.proposer_address = sv.address
  · rw [if_pos hp]
    refine ⟨by simp, ?_⟩
    constructor
    · intro _; exact hp
    · intro _
      exact ⟨fp.decided_value (Commits.from_commit_certificate cert),
        by simp⟩
  · rw [if_neg hp]
    refine ⟨by simp, ?_⟩
    constructor
    · rintro ⟨v, hv⟩
      simp at hv
    · intro hcontra
      exact absurd hcontra hp

/-- Codec roundtrip for scalar fields. -/
theorem decNat_enc (n : Nat) (r : Bytes) :
    decNat (encNat n ++ r) = some (n, r) := rfl

/-- Codec roundtrip for length-delimited fields. -/
theorem decBytes_enc (b r : Bytes) :
    decBytes (encBytes b ++ r) = some (b, r) := by
  simp [encBytes, decBytes, List.cons_append]

/-- Codec roundtrip for optional fields. -/
theorem decOpt_enc {α : Type} (f : α → Bytes)
    (f' : Bytes → Option (α × Bytes))
    (hf : ∀ x r, f' (f x ++ r) = some (x, r)) (o : Option α) (r : Bytes) :
    decOpt f' (encOpt f o ++ r) = some (o, r) := by
  cases o with
  | none => rfl
  | some x => simp [encOpt, decOpt, List.cons_append, hf]

/-- Codec roundtrip for `UserNameProof` records. -/
theorem decUserNameProof_enc (p : UserNameProof) (r : Bytes) :
    decUserNameProof (encUserNameProof p ++ r) = some (p, r) := by
  simp [encUserNameProof, decUserNameProof, List.append_assoc,
    decNat_enc, decBytes_enc]

/-- Codec roundtrip for the body oneof. -/
theorem decBody_enc (b : MessageBody) (r : Bytes) :
    decBody (encBody b ++ r) = some (b, r) := by
  cases b with
  | usernameProofBody p =>
    simp [encBody, decBody, List.cons_append, decUserNameProof_enc]
  | otherBody t pl =>
    simp [encBody, decBody, List.cons_append, List.append_assoc,
      decNat_enc, decBytes_enc]

/-- Codec roundtrip for `MessageData` records with a remainder. -/
theorem decMessageData_enc (d : MessageData) (r : Bytes) :
    decMessageData (encMessageData d ++ r) = some (d, r) := by
  simp [encMessageData, decMessageData, List.append_assoc, decNat_enc,
    decOpt_enc encBody decBody decBody_enc]

/-- `MessageData::decode` inverts `MessageData::encode_to_vec`. -/
theorem messageData_decode_encode (d : MessageData) :
    MessageData.decode (MessageData.encode_to_vec d) = some d := by
  have h := decMessageData_enc d []
  rw [List.append_nil] at h
  simp [MessageData.decode, MessageData.encode_to_vec, h]

/-- Codec roundtrip for `Message` records with a remainder. -/
theorem decMessage_enc (m : Message) (r : Bytes) :
    decMessage (encMessage m ++ r) = some (m, r) := by
  simp [encMessage, decMessage, List.append_assoc, decNat_enc,
    decBytes_enc, decOpt_enc encMessageData decMessageData
      decMessageData_enc, decOpt_enc encBytes decBytes decBytes_enc]

/-- `Message::decode` inverts `Message::encode_to_vec`. -/
theorem message_decode_encode (m : Message) :
    Message.decode (Message.encode_to_vec m) = some m := by
  have h := decMessage_enc m []
  rw [List.append_nil] at h
  simp [Message.decode, Message.encode_to_vec, h]

/-- C4: for every message whose `data_bytes` field is present and
non-empty, `message_encode` serializes the message with the `data` field
cleared to `None`, and `message_decode` of those bytes repopulates `data`
by decoding `data_bytes`, so the decoded message's `data` equals the
`MessageData` encoded in `data_bytes`; for messages with absent or empty
`data_bytes`, `message_encode` is the plain protobuf encoding and decode
leaves `data` as encoded. -/
theorem message_encode_decode_data_bytes (m : Message) :
    (∀ bs, m.data_bytes = some bs → bs ≠ [] →
      message_encode m = Message.encode_to_vec { m with data := none } ∧
      (∀ d, bs = MessageData.encode_to_vec d →
        message_decode (message_encode m) =
          .ok { m with data := some d })) ∧
    ((m.data_bytes = none ∨ m.data_bytes = some []) →
      message_encode m = Message.encode_to_vec m ∧
      message_decode (message_encode m) = .ok m) := by
  constructor
  · intro bs hdb hne
    have hlen : (m.data_bytes.getD []).length > 0 := by
      rw [hdb]
      simpa [List.length_pos] using hne
    have hcond : m.data_bytes.isSome ∧ (m.data_bytes.getD []).length > 0 :=
      ⟨by rw [hdb]; rfl, hlen⟩
    have henc : message_encode m =
        Message.encode_to_vec { m with data := none } := by
      unfold message_encode
      rw [if_pos hcond]
    refine ⟨henc, ?_⟩
    intro d hd
    rw [henc]
    unfold message_decode
    rw [message_decode_encode]
    dsimp only
    unfold message_bytes_decode
    have hcond2 : ({ m with data := none } : Message).data_bytes.isSome ∧
        (({ m with data := none } : Message).data_bytes.getD []).length
          > 0 := by
      exact hcond
    rw [if_pos hcond2]
    have hdb2 : ({ m with data := none } : Message).data_bytes.getD [] =
        MessageData.encode_to_vec d := by
      show m.data_bytes.getD [] = MessageData.encode_to_vec d
      rw [hdb, hd]
      rfl
    rw [hdb2, messageData_decode_encode]
  · intro hempty
    have hcond : ¬ (m.data_bytes.isSome ∧
        (m.data_bytes.getD []).length > 0) := by
      rcases hempty with h | h <;> rw [h] <;> simp
    have henc : message_encode m = Message.encode_to_vec m := by
      unfold message_encode
      rw [if_neg hcond]
    refine ⟨henc, ?_⟩
    rw [henc]
    unfold message_decode
    rw [message_decode_encode]
    dsimp only
    unfold message_bytes_decode
    rw [if_neg hcond]

/-- Witness for `message_encode_decode_data_bytes`: a message whose
`data_bytes` holds the encoding of a concrete `MessageData`; encoding
clears `data` and decoding repopulates it with that `MessageData`. -/
theorem message_encode_decode_data_bytes_witness :
    (Message.mk none [3] 1 [4] 1 [5]
        (some (MessageData.encode_to_vec ⟨9, 12, 100, 1, none⟩))
      : Message).data_bytes =
        some (MessageData.encode_to_vec ⟨9, 12, 100, 1, none⟩) ∧
    (MessageData.encode_to_vec ⟨9, 12, 100, 1, none⟩ ≠ []) ∧
    message_decode (message_encode (Message.mk none [3] 1 [4] 1 [5]
        (some (MessageData.encode_to_vec ⟨9, 12, 100, 1, none⟩)))) =
      .ok (Message.mk (some ⟨9, 12, 100, 1, none⟩) [3] 1 [4] 1 [5]
        (some (MessageData.encode_to_vec ⟨9, 12, 100, 1, none⟩))) :=
  ⟨rfl, by decide,
    ((message_encode_decode_data_bytes (Message.mk none [3] 1 [4] 1 [5]
        (some (MessageData.encode_to_vec ⟨9, 12, 100, 1, none⟩)))).1
      (MessageData.encode_to_vec ⟨9, 12, 100, 1, none⟩) rfl (by decide)).2
      ⟨9, 12, 100, 1, none⟩ rfl⟩

/-- Splitting a lexicographic byte comparison at position `n`: compare
the first `n` bytes first, and on a tie the remainders. -/
theorem bytes_compare_split (n : Nat) : ∀ (a b : Bytes),
    n ≤ a.length → n ≤ b.length →
    bytes_compare a b =
      (if bytes_compare (a.take n) (b.take n) = 0 then
        bytes_compare (a.drop n) (b.drop n)
      else bytes_compare (a.take n) (b.take n)) := by
  induction n with
  | zero => intro a b _ _; simp [bytes_compare]
  | succ n ih =>
    intro a b ha hb
    match a, b with
    | [], _ => simp at ha
    | _ :: _, [] => simp at hb
    | x :: a2, y :: b2 =>
      simp only [List.length_cons] at ha hb
      by_cases hxy : x < y
      · simp [bytes_compare, hxy]
      · by_cases hyx : y < x
        · simp [bytes_compare, hxy, hyx]
        · simp only [List.take_succ_cons, List.drop_succ_cons,
            bytes_compare, if_neg hxy, if_neg hyx]
          exact ih a2 b2 (by omega) (by omega)

/-- For two messages of the same (add) type, the spec's merge priority —
timestamp first, then hash — is the plain lexicographic comparison of
their ts_hashes (`timestamp_be(4) ∥ hash(20)`). -/
theorem message_compare_same_type (rm ty : Nat) (a b : Bytes)
    (ha : 4 ≤ a.length) (hb : 4 ≤ b.length) :
    message_compare rm ty a ty b = bytes_compare a b := by
  unfold message_compare
  rw [bytes_compare_split 4 a b ha hb]
  by_cases h : bytes_compare (a.take 4) (b.take 4) = 0
  · simp [h]
  · simp [h]

/-- C2: for an incoming UsernameProof message with a by-name index entry
pointing at an existing stored proof for the same name,
`get_merge_conflicts` returns a `bad_request.conflict` error exactly when
the existing proof has strictly greater merge priority than the incoming
message (compared by ts_hash, i.e. timestamp then hash), a
`bad_request.duplicate` error exactly when the priorities are equal, and
otherwise the existing message as the single conflict; the two error
codes are distinct. -/
theorem username_proof_merge_conflict_rules
    (db : RocksDB) (txn : RocksDbTransactionBatch) (m : Message)
    (data : MessageData) (body : UserNameProof) (ts_hash : Bytes)
    (fid_bytes : Bytes) (ets : Bytes) (existing : Message) (cmp : Int)
    (h1 : m.data = some data)
    (h2 : data.body = some (.usernameProofBody body))
    (h3 : get_from_db_or_txn db txn
      (make_username_proof_by_name_key body.name) = some fid_bytes)
    (h4 : read_fid_key fid_bytes 0 > 0)
    (h5 : get_from_db_or_txn db txn
      (make_username_proof_by_fid_key (read_fid_key fid_bytes 0)
        body.name) = some ets)
    (h6 : ets.length = TS_HASH_LENGTH)
    (h7 : get_message db txn (read_fid_key fid_bytes 0)
      usernameProofMessageByte ets = .ok (some existing))
    (hcmp : cmp = message_compare noneMessageType
      usernameProofMessageType ets usernameProofMessageType ts_hash) :
    (username_proof_get_merge_conflicts db txn m ts_hash =
        .error { code := "bad_request.conflict",
                 message := "message conflicts with a more recent add" } ↔
      cmp > 0) ∧
    (username_proof_get_merge_conflicts db txn m ts_hash =
        .error { code := "bad_request.duplicate",
                 message := "message has already been merged" } ↔
      cmp = 0) ∧
    (cmp < 0 → username_proof_get_merge_conflicts db txn m ts_hash =
      .ok [existing]) ∧
    ("bad_request.conflict" ≠ "bad_request.duplicate") ∧
    (ts_hash.length = TS_HASH_LENGTH → cmp = bytes_compare ets ts_hash) := by
  have hres : username_proof_get_merge_conflicts db txn m ts_hash =
      (if cmp > 0 then
        .error { code := "bad_request.conflict",
                 message := "message conflicts with a more recent add" }
      else if cmp = 0 then
        .error { code := "bad_request.duplicate",
                 message := "message has already been merged" }
      else .ok [existing]) := by
    unfold username_proof_get_merge_conflicts
    rw [h1]
    dsimp only
    rw [h2]
    dsimp only
    rw [h3]
    dsimp only
    rw [if_pos h4, h5]
    have hv : vec_to_u8_24 (some ets) = .ok ets := by
      unfold vec_to_u8_24
      dsimp only
      rw [if_pos h6]
    rw [hv]
    dsimp only
    rw [h7]
    dsimp only
    rw [← hcmp]
  rcases lt_trichotomy cmp 0 with hlt | heq | hgt
  · have : username_proof_get_merge_conflicts db txn m ts_hash =
        .ok [existing] := by
      rw [hres, if_neg (by omega), if_neg (by omega)]
    refine ⟨?_, ?_, fun _ => this, by decide, ?_⟩
    · rw [this]; constructor
      · intro hc; exact absurd hc (by simp)
      · intro hc; omega
    · rw [this]; constructor
      · intro hc; exact absurd hc (by simp)
      · intro hc; omega
    · intro hlen
      rw [hcmp]
      exact message_compare_same_type _ _ _ _
        (by rw [h6]; decide) (by rw [hlen]; decide)
  · have : username_proof_get_merge_conflicts db txn m ts_hash =
        .error { code := "bad_request.duplicate",
                 message := "message has already been merged" } := by
      rw [hres, if_neg (by omega), if_pos heq]
    refine ⟨?_, ?_, fun hc => absurd heq (by omega), by decide, ?_⟩
    · rw [this]; constructor
      · intro hc
        have := (Except.error.injEq _ _).mp hc
        exact absurd (congrArg HubError.code this) (by decide)
      · intro hc; omega
    · rw [this]
      simp [heq]
    · intro hlen
      rw [hcmp]
      exact message_compare_same_type _ _ _ _
        (by rw [h6]; decide) (by rw [hlen]; decide)
  · have : username_proof_get_merge_conflicts db txn m ts_hash =
        .error { code := "bad_request.conflict",
                 message := "message conflicts with a more recent add" } := by
      rw [hres, if_pos hgt]
    refine ⟨?_, ?_, fun hc => absurd hgt (by omega), by decide, ?_⟩
    · rw [this]
      simp [hgt]
    · rw [this]; constructor
      · intro hc
        have := (Except.error.injEq _ _).mp hc
        exact absurd (congrArg HubError.code this) (by decide)
      · intro hc; omega
    · intro hlen
      rw [hcmp]
      exact message_compare_same_type _ _ _ _
        (by rw [h6]; decide) (by rw [hlen]; decide)

set_option maxRecDepth 4000 in
/-- Witness for `username_proof_merge_conflict_rules`: a concrete store
holding a proof for "a" at timestamp 100 and an incoming proof at
timestamp 50 — the existing proof has higher priority, so the merge is a
`bad_request.conflict`. -/
theorem username_proof_merge_conflict_rules_witness :
    get_from_db_or_txn sampleDb emptyTxn
        (make_username_proof_by_name_key [97]) = some (make_fid_key 1) ∧
    get_message sampleDb emptyTxn (read_fid_key (make_fid_key 1) 0)
        usernameProofMessageByte sampleEts =
      .ok (some sampleExistingMessage) ∧
    username_proof_get_merge_conflicts sampleDb emptyTxn sampleIncoming
        sampleTsHash =
      .error { code := "bad_request.conflict",
               message := "message conflicts with a more recent add" } :=
  ⟨rfl, rfl,
    (username_proof_merge_conflict_rules sampleDb emptyTxn sampleIncoming
      ⟨2, 12, 50, 1, some (.usernameProofBody ⟨50, [97], [], [], 2, 6⟩)⟩
      ⟨50, [97], [], [], 2, 6⟩ sampleTsHash (make_fid_key 1) sampleEts
      sampleExistingMessage
      (message_compare noneMessageType usernameProofMessageType sampleEts
        usernameProofMessageType sampleTsHash)
      rfl rfl rfl (by decide) rfl rfl rfl rfl).1.mpr (by decide)⟩

/-- C9: for every `FnameTransfer` whose proof name is valid UTF-8 and
whose EIP-712 typed-data hash computes successfully,
`validate_fname_transfer` returns `Ok` when the network is Devnet,
regardless of the proof's signature: the 65-byte length check and the
signer-address recovery check are skipped entirely on Devnet (the result
is `Ok` for every signature value whatsoever). -/
theorem devnet_skips_fname_signature_checks (env : Eip712Env)
    (transfer : FnameTransfer) (proof : UserNameProof)
    (signer_address : Option Bytes) (td : Nat) (prehash : Bytes)
    (h1 : transfer.proof = some proof)
    (h2 : utf8_valid proof.name = true)
    (h3 : env.typed_data_of proof.name proof.timestamp proof.owner =
      some td)
    (h4 : env.signing_hash td = some prehash) :
    validate_fname_transfer env transfer FarcasterNetwork.devnet
        signer_address = some (.ok ()) ∧
    (∀ sig : Bytes,
      validate_fname_transfer env
          { transfer with proof := some { proof with signature := sig } }
          FarcasterNetwork.devnet signer_address = some (.ok ())) := by
  have key : ∀ sig : Bytes,
      validate_fname_transfer env
          { transfer with proof := some { proof with signature := sig } }
          FarcasterNetwork.devnet signer_address = some (.ok ()) := by
    intro sig
    unfold validate_fname_transfer
    simp only [h2, h3, h4]
    simp
  constructor
  · have h5 : transfer = { transfer with proof := some proof } := by
      obtain ⟨tid, tfrom, tproof⟩ := transfer
      dsimp only at h1
      rw [h1]
    rw [h5]
    exact key proof.signature
  · exact key

/-- Witness for `devnet_skips_fname_signature_checks` with an oracle whose
recovery always fails and an empty (not 65-byte) signature: Devnet still
validates. -/
theorem devnet_skips_fname_signature_checks_witness :
    (FnameTransfer.mk 1 2 (some ⟨10, [97], [5], [], 3, 6⟩)).proof =
        some ⟨10, [97], [5], [], 3, 6⟩ ∧
    utf8_valid [97] = true ∧
    validate_fname_transfer
        (Eip712Env.mk (fun _ _ _ => some 0) (fun _ => some [1])
          (fun _ _ _ => none))
        (FnameTransfer.mk 1 2 (some ⟨10, [97], [5], [], 3, 6⟩))
        FarcasterNetwork.devnet none = some (.ok ()) :=
  ⟨rfl, by decide,
    (devnet_skips_fname_signature_checks
      (Eip712Env.mk (fun _ _ _ => some 0) (fun _ => some [1])
        (fun _ _ _ => none))
      (FnameTransfer.mk 1 2 (some ⟨10, [97], [5], [], 3, 6⟩))
      ⟨10, [97], [5], [], 3, 6⟩ none 0 [1] rfl (by decide) rfl rfl).1⟩

/-- C7 counterexample: the claim that the enqueued `StorageRentEventBody`
has `expiry = block_timestamp + 31_536_000` fails at
`block_timestamp = 2^32`: the source casts the sum with `as u32`, so the
stored expiry is `31536000`, not `4294967296 + 31536000`. -/
theorem rent_expiry_truncation_counterexample :
    process_rent_log 10 108864800 [1] 4294967296 3 2 [9]
        { payer := [170], fid := 7, units := 1 } =
      .ok
        { on_chain_event := some
            { fid := 7
              block_number := 108864800
              block_hash := [1]
              block_timestamp := 4294967296
              log_index := 3
              tx_index := 2
              event_type := eventTypeStorageRent
              chain_id := 10
              version := 0
              body := some (.storageRentEventBody
                { payer := [170], units := 1, expiry := 31536000 })
              transaction_hash := [9] }
          fname_transfer := none } ∧
    (31536000 : Nat) ≠ 4294967296 + 31536000 :=
  ⟨rfl, by decide⟩

/-- C7 (amended): for every decoded StorageRegistry Rent log whose fid
fits in u64 and units fit in u32, the subscriber enqueues a
`ValidatorMessage` whose `StorageRentEventBody` has payer and units taken
from the log and expiry equal to
`(block_timestamp + 31_536_000) mod 2^32` — which equals
`block_timestamp + 31_536_000` whenever that sum fits in u32. -/
theorem rent_event_expiry (chain_id block_number : Nat)
    (block_hash : Bytes) (block_timestamp log_index tx_index : Nat)
    (transaction_hash : Bytes) (l : RentLogData)
    (hfid : l.fid < 2 ^ 64) (hunits : l.units < 2 ^ 32) :
    process_rent_log chain_id block_number block_hash block_timestamp
        log_index tx_index transaction_hash l =
      .ok
        { on_chain_event := some
            { fid := l.fid
              block_number := block_number % 2 ^ 32
              block_hash := block_hash
              block_timestamp := block_timestamp
              log_index := log_index % 2 ^ 32
              tx_index := tx_index % 2 ^ 32
              event_type := eventTypeStorageRent
              chain_id := chain_id
              version := 0
              body := some (.storageRentEventBody
                { payer := l.payer
                  units := l.units
                  expiry := (block_timestamp + RENT_EXPIRY_IN_SECONDS)
                    % 2 ^ 32 })
              transaction_hash := transaction_hash }
          fname_transfer := none } ∧
    (block_timestamp + RENT_EXPIRY_IN_SECONDS < 2 ^ 32 →
      (block_timestamp + RENT_EXPIRY_IN_SECONDS) % 2 ^ 32 =
        block_timestamp + RENT_EXPIRY_IN_SECONDS) := by
  constructor
  · unfold process_rent_log
    rw [if_pos hfid, if_pos hunits]
  · intro hlt
    exact Nat.mod_eq_of_lt hlt

/-- Witness for `rent_event_expiry` on the spec's seed scenario
(`Rent{payer=0xAA, fid=7, units=1}`, a realistic block timestamp). -/
theorem rent_event_expiry_witness :
    (7 : Nat) < 2 ^ 64 ∧ (1 : Nat) < 2 ^ 32 ∧
    process_rent_log 10 108864800 [1] 1690000000 3 2 [9]
        { payer := [170], fid := 7, units := 1 } =
      .ok
        { on_chain_event := some
            { fid := 7
              block_number := 108864800
              block_hash := [1]
              block_timestamp := 1690000000
              log_index := 3
              tx_index := 2
              event_type := eventTypeStorageRent
              chain_id := 10
              version := 0
              body := some (.storageRentEventBody
                { payer := [170], units := 1,
                  expiry := (1690000000 + RENT_EXPIRY_IN_SECONDS)
                    % 2 ^ 32 })
              transaction_hash := [9] }
          fname_transfer := none } :=
  ⟨by decide, by decide,
    (rent_event_expiry 10 108864800 [1] 1690000000 3 2 [9]
      { payer := [170], fid := 7, units := 1 } (by decide) (by decide)).1⟩

/-- Witness for `decided_broadcast_only_by_proposer`: a node whose own
address differs from the buffered proposal's proposer commits but the
broadcast-iff-proposer equivalence rules out any broadcast. -/
theorem decided_broadcast_only_by_proposer_witness :
    (ShardValidator.mk (fun _ => some ⟨⟨1, 5⟩, 0, [9], none⟩)
        (fun _ => ⟨[]⟩) [8] (fun h r => ⟨h, r, [], none⟩)
        (fun _ => 0)).proposed_values ⟨1, [7]⟩ =
      some ⟨⟨1, 5⟩, 0, [9], none⟩ ∧
    HostEffect.decideCommit
        (Commits.from_commit_certificate ⟨⟨1, 5⟩, 0, ⟨1, [7]⟩⟩) ∈
      handle_decided
        (ShardValidator.mk (fun _ => some ⟨⟨1, 5⟩, 0, [9], none⟩)
          (fun _ => ⟨[]⟩) [8] (fun h r => ⟨h, r, [], none⟩)
          (fun _ => 0)) 1000 ⟨⟨1, 5⟩, 0, ⟨1, [7]⟩⟩ ∧
    ((∃ v, HostEffect.broadcastDecidedValue v ∈
        handle_decided
          (ShardValidator.mk (fun _ => some ⟨⟨1, 5⟩, 0, [9], none⟩)
            (fun _ => ⟨[]⟩) [8] (fun h r => ⟨h, r, [], none⟩)
            (fun _ => 0)) 1000 ⟨⟨1, 5⟩, 0, ⟨1, [7]⟩⟩) ↔
      FullProposal.proposer_address ⟨⟨1, 5⟩, 0, [9], none⟩ = [8]) :=
  ⟨rfl,
    decided_broadcast_only_by_proposer
      (ShardValidator.mk (fun _ => some ⟨⟨1, 5⟩, 0, [9], none⟩)
        (fun _ => ⟨[]⟩) [8] (fun h r => ⟨h, r, [], none⟩)
        (fun _ => 0)) 1000 ⟨⟨1, 5⟩, 0, ⟨1, [7]⟩⟩ ⟨⟨1, 5⟩, 0, [9], none⟩
      rfl⟩

end Snapchain
